import Mathlib

/-!
Verification of the stock-data visualization core (model.py, view.py, app.py).

The Python code is shallowly embedded: dictionaries become association lists
(Python dicts preserve insertion order, which the lists model directly),
raised exceptions become `Except PyErr` errors, `None` becomes `Option.none`,
and CPython's `datetime.strptime(s, "%Y-%m-%d")` is modelled by `strpDate`
(exactly four year digits, one or two month digits in 1..12, one or two day
digits validated against the month length including leap years, whole string
consumed).  All numeric values stay exact (`Nat`/`Rat`); no claim inspects
floating-point rounding.
-/

/-- Python exceptions that the embedded code can raise. -/
inductive PyErr where
  | keyError
  | valueError
  | typeError
  | indexError
  | attributeError
deriving DecidableEq

/-- A JSON value as far as the code observes it: strings and string-keyed
objects (the Alpha Vantage payload shape). -/
inductive JsonVal where
  | jstr : String → JsonVal
  | jobj : List (String × JsonVal) → JsonVal

/-- First-match lookup in an association list: `m[k]`/`k in m` on a dict. -/
def assocLookup {α : Type} : List (String × α) → String → Option α
  | [], _ => none
  | (k', v) :: rest, k => if k' = k then some v else assocLookup rest k

/-- ASCII digit test, `0` .. `9` by code point. -/
def isDigitB (c : Char) : Bool := decide (48 ≤ c.toNat) && decide (c.toNat ≤ 57)

/-- Value of a digit character. -/
def digitVal (c : Char) : Nat := c.toNat - 48

/-- Numeric value of a big-endian digit string. -/
def digitsVal : List Char → Nat
  | [] => 0
  | c :: cs => digitVal c * 10 ^ cs.length + digitsVal cs

/-- Whitespace for `str.split()` / `str.strip()` (ASCII portion: space, TAB,
LF, VT, FF, CR; the repository's data is ASCII). -/
def isSpaceB (c : Char) : Bool := c.toNat == 32 || (decide (9 ≤ c.toNat) && decide (c.toNat ≤ 13))

/-- `s.split()[0]`: skip leading whitespace, take the first run of
non-whitespace; `IndexError` when the string has no token at all. -/
def firstToken (s : List Char) : Except PyErr (List Char) :=
  match s.dropWhile isSpaceB with
  | [] => .error .indexError
  | c :: cs => .ok (c :: cs.takeWhile (fun x => !isSpaceB x))

/-- Up to two leading digits (CPython's `%m`/`%d` regex take one or two
digits; a greedy two-digit match never backtracks profitably here). -/
def takeDigits2 (s : List Char) : List Char × List Char :=
  match s with
  | a :: b :: rest =>
    if isDigitB a then
      if isDigitB b then ([a, b], rest) else ([a], b :: rest)
    else ([], s)
  | [a] => if isDigitB a then ([a], []) else ([], [a])
  | [] => ([], [])

/-- Gregorian leap year, as in CPython's `calendar.isleap`. -/
def isLeapYear (y : Nat) : Bool := y % 4 == 0 && (y % 100 != 0 || y % 400 == 0)

/-- Length of a month, as validated by the `datetime` constructor. -/
def daysInMonth (y m : Nat) : Nat :=
  if m = 2 then (if isLeapYear y then 29 else 28)
  else if m = 4 ∨ m = 6 ∨ m = 9 ∨ m = 11 then 30 else 31

/-- A parsed calendar date (a `datetime` whose time-of-day is midnight). -/
structure Date where
  year : Nat
  month : Nat
  day : Nat
deriving DecidableEq

/-- Key for comparing dates; for the bounded components produced by parsing
(`month ≤ 12`, `day ≤ 31`) its order is exactly `datetime` order. -/
def Date.val (d : Date) : Nat := d.year * 10000 + d.month * 100 + d.day

/-- `datetime` comparison (lexicographic on year, month, day). -/
def dateLeB (a b : Date) : Bool :=
  decide (a.year < b.year) ||
    (a.year == b.year &&
      (decide (a.month < b.month) || (a.month == b.month && decide (a.day ≤ b.day))))

/-- `datetime.strptime(s, "%Y-%m-%d")` returning `none` for `ValueError`:
exactly four year digits, a dash, one or two month digits, a dash, one or
two day digits, end of string; year ≥ 1, month in 1..12, day in
1..`daysInMonth` (constructor validation). -/
def strpDate (s : List Char) : Option Date :=
  match s with
  | y3 :: y2 :: y1 :: y0 :: '-' :: rest1 =>
    if isDigitB y3 && isDigitB y2 && isDigitB y1 && isDigitB y0 then
      let (ms, rest2) := takeDigits2 rest1
      if ms = [] then none
      else
        match rest2 with
        | '-' :: rest3 =>
          let (ds, rest4) := takeDigits2 rest3
          if ds = [] then none
          else if rest4 = [] then
            let y := digitsVal [y3, y2, y1, y0]
            let m := digitsVal ms
            let d := digitsVal ds
            if 1 ≤ y ∧ 1 ≤ m ∧ m ≤ 12 ∧ 1 ≤ d ∧ d ≤ daysInMonth y m then
              some ⟨y, m, d⟩
            else none
          else none
        | _ => none
    else none
  | _ => none

/-- model.py `validate_date_format`: parse `YYYY-MM-DD`, `None` on failure. -/
def validate_date_format (s : String) : Option Date := strpDate s.data

/-- model.py `validate_date_range`: `end_date >= start_date`. -/
def validate_date_range (start_date end_date : Date) : Bool := dateLeB start_date end_date

/-- Python string comparison: lexicographic on code points. -/
def lexLeChars : List Char → List Char → Bool
  | [], _ => true
  | _ :: _, [] => false
  | a :: as, b :: bs =>
    if a.toNat < b.toNat then true
    else if a.toNat = b.toNat then lexLeChars as bs
    else false

/-- String order used by `sorted` on dict keys. -/
def strLeP (a b : String) : Prop := lexLeChars a.data b.data = true

instance : DecidableRel strLeP := fun a b =>
  inferInstanceAs (Decidable (lexLeChars a.data b.data = true))

/-- `sorted(keys)`: keys in ascending code-point order. -/
def sortKeys (ks : List String) : List String := List.insertionSort strLeP ks

/-- Big-endian digit accumulation (helper for `pyFloat`). -/
def parseNatDigits (cs : List Char) : Nat := cs.foldl (fun a c => a * 10 + digitVal c) 0

/-- CPython `float()` on plain decimal literals: optional surrounding
whitespace, optional sign, digits with an optional fractional part, exact
rational value.  (inf/nan, exponents and underscore separators never occur
in the repository's data and no claim observes them.) -/
def pyFloat (s : List Char) : Option Rat :=
  let t1 := ((s.dropWhile isSpaceB).reverse.dropWhile isSpaceB).reverse
  let signed : Bool × List Char :=
    match t1 with
    | '-' :: r => (true, r)
    | '+' :: r => (false, r)
    | r => (false, r)
  let neg := signed.1
  let t2 := signed.2
  let intPart := t2.takeWhile isDigitB
  let t3 := t2.dropWhile isDigitB
  let fracSplit : List Char × List Char :=
    match t3 with
    | '.' :: r => (r.takeWhile isDigitB, r.dropWhile isDigitB)
    | r => ([], r)
  let fracPart := fracSplit.1
  let rest := fracSplit.2
  if intPart = [] ∧ fracPart = [] then none
  else if rest ≠ [] then none
  else
    let q : Rat := (parseNatDigits (intPart ++ fracPart) : Rat) / (10 : Rat) ^ fracPart.length
    some (if neg then -q else q)

/-- ASCII `str.strip()`. -/
def pyStrip (s : String) : String :=
  String.mk (((s.data.dropWhile isSpaceB).reverse.dropWhile isSpaceB).reverse)

/-- ASCII `str.upper()`. -/
def pyUpper (s : String) : String := String.mk (s.data.map Char.toUpper)

/-- model.py line 38: the granularity → API function name table; an unmapped
code means the Python subscript raises `KeyError`. -/
def function_map (g : Nat) : Option String :=
  if g = 1 then some "TIME_SERIES_INTRADAY"
  else if g = 2 then some "TIME_SERIES_DAILY"
  else if g = 3 then some "TIME_SERIES_WEEKLY"
  else if g = 4 then some "TIME_SERIES_MONTHLY"
  else none

/-- model.py lines 46-55: the request parameter dict (in insertion order),
with `interval` appended only for Intraday. -/
def build_params (symbol : String) (g : Nat) (apikey : String) :
    Except PyErr (List (String × String)) :=
  match function_map g with
  | none => .error .keyError
  | some fn =>
    .ok ([("function", fn), ("symbol", symbol), ("apikey", apikey), ("outputsize", "full")]
      ++ if g = 1 then [("interval", "60min")] else [])

/-- The outcome of `requests.get(...)`: a raised transport exception, or a
response with a status code and parsed JSON body. -/
inductive NetResult where
  | exn : NetResult
  | resp (status : Nat) (body : List (String × JsonVal)) : NetResult

/-- model.py `AlphaVantageAPI.fetch_stock_data`: build parameters (KeyError
for an unmapped granularity), then classify the response — transport error
or non-2xx status gives `None`, an `Error Message` or `Note` key gives
`None`, otherwise the parsed body. -/
def fetch_stock_data (symbol : String) (g : Nat) (apikey : String) (net : NetResult) :
    Except PyErr (Option (List (String × JsonVal))) :=
  match build_params symbol g apikey with
  | .error e => .error e
  | .ok _ =>
    match net with
    | .exn => .ok none
    | .resp status body =>
      if 400 ≤ status then .ok none
      else if (assocLookup body "Error Message").isSome then .ok none
      else if (assocLookup body "Note").isSome then .ok none
      else .ok (some body)

/-- model.py line 113: granularity → response key table; unmapped codes make
the Python subscript raise `KeyError`. -/
def time_series_key_map (g : Nat) : Option String :=
  if g = 1 then some "Time Series (60min)"
  else if g = 2 then some "Time Series (Daily)"
  else if g = 3 then some "Weekly Time Series"
  else if g = 4 then some "Monthly Time Series"
  else none

/-- The date of one raw entry as the filter computes it:
`datetime.strptime(date_str.split()[0], "%Y-%m-%d")`, `none` when that
raises. -/
def entryDate (kv : String × JsonVal) : Option Date :=
  match firstToken kv.1.data with
  | .error _ => none
  | .ok tok => strpDate tok

/-- The filter's retention test: the entry's date lies in `[s, e]`
(both bounds inclusive). -/
def keepEntry (s e : Date) (kv : String × JsonVal) : Bool :=
  match entryDate kv with
  | none => false
  | some d => dateLeB s d && dateLeB d e

/-- model.py lines 130-138: the filtering loop, in dict order; an entry whose
key fails to tokenize or parse raises out of the loop. -/
def filterEntries (s e : Date) : List (String × JsonVal) → Except PyErr (List (String × JsonVal))
  | [] => .ok []
  | (k, v) :: rest =>
    match firstToken k.data with
    | .error err => .error err
    | .ok tok =>
      match strpDate tok with
      | none => .error .valueError
      | some d =>
        match filterEntries s e rest with
        | .error err => .error err
        | .ok tail =>
          if dateLeB s d && dateLeB d e then .ok ((k, v) :: tail) else .ok tail

/-- model.py `StockData.filter_by_date_range`: look up the granularity's
response key (KeyError when unmapped), return `{}` when the key is absent
from the response, iterating `.items()` on a non-dict raises, otherwise run
the filtering loop. -/
def filter_by_date_range (raw : List (String × JsonVal)) (g : Nat) (s e : Date) :
    Except PyErr (List (String × JsonVal)) :=
  match time_series_key_map g with
  | none => .error .keyError
  | some key =>
    match assocLookup raw key with
    | none => .ok []
    | some (.jstr _) => .error .attributeError
    | some (.jobj entries) => filterEntries s e entries

/-- The dict returned by `get_formatted_data`: five parallel lists. -/
structure Formatted where
  dates : List String
  opens : List Rat
  highs : List Rat
  lows : List Rat
  closes : List Rat

/-- `float(values[name])`: the field must exist and be a numeric string. -/
def getField (v : JsonVal) (name : String) : Except PyErr Rat :=
  match v with
  | .jstr _ => .error .typeError
  | .jobj fields =>
    match assocLookup fields name with
    | none => .error .keyError
    | some (.jobj _) => .error .typeError
    | some (.jstr s) =>
      match pyFloat s.data with
      | none => .error .valueError
      | some q => .ok q

/-- model.py lines 162-168: one loop turn per sorted key — look the entry up,
append the date-only part of its key, then its four parsed prices. -/
def formatEntries (m : List (String × JsonVal)) : List String → Except PyErr Formatted
  | [] => .ok ⟨[], [], [], [], []⟩
  | k :: ks =>
    match assocLookup m k with
    | none => .error .keyError
    | some v =>
      match firstToken k.data with
      | .error e => .error e
      | .ok tok =>
        match getField v "1. open" with
        | .error e => .error e
        | .ok o =>
          match getField v "2. high" with
          | .error e => .error e
          | .ok hi =>
            match getField v "3. low" with
            | .error e => .error e
            | .ok lo =>
              match getField v "4. close" with
              | .error e => .error e
              | .ok cl =>
                match formatEntries m ks with
                | .error e => .error e
                | .ok rest =>
                  .ok ⟨String.mk tok :: rest.dates, o :: rest.opens, hi :: rest.highs,
                       lo :: rest.lows, cl :: rest.closes⟩

/-- model.py `StockData.get_formatted_data`: `None` when nothing was
retained, otherwise decompose in sorted key order. -/
def get_formatted_data (filtered : List (String × JsonVal)) :
    Except PyErr (Option Formatted) :=
  match filtered with
  | [] => .ok none
  | _ =>
    match formatEntries filtered (sortKeys (filtered.map Prod.fst)) with
    | .error e => .error e
    | .ok f => .ok (some f)

/-- One dataset block of the Chart.js specification (view.py lines 23-50). -/
structure Dataset where
  label : String
  data : List Rat
  borderColor : String
  backgroundColor : String
  fill : Bool

/-- The chart specification view.py's template interpolates into its
HTML/JS block (type, data and options of the `new Chart(...)` call,
plus the `<h2>` title text). -/
structure ChartSpec where
  titleText : String
  typ : String
  labels : List String
  datasets : List Dataset
  yBeginAtZero : Bool
  yTitleDisplay : Bool
  yTitleText : String
  xTitleDisplay : Bool
  xTitleText : String
  ticksMaxRotation : Nat
  ticksMinRotation : Nat
  legendDisplay : Bool
  legendPosition : String

/-- view.py `ChartGenerator.create_chart`: `None` for an absent series or an
empty dates list, otherwise the chart specification with four fixed OHLC
datasets, bar type exactly for `chart_type == 1`, line otherwise. -/
def create_chart (data : Option Formatted) (symbol : String) (chart_type : Int)
    (start_date end_date : String) : Option ChartSpec :=
  match data with
  | none => none
  | some d =>
    match d.dates with
    | [] => none
    | _ =>
      some
        { titleText := "Stock Data for " ++ symbol ++ ": " ++ start_date ++ " to " ++ end_date
          typ := if chart_type = 1 then "bar" else "line"
          labels := d.dates
          datasets :=
            [ ⟨"Open", d.opens, "rgba(255,99,132,1)", "rgba(255,99,132,0.25)", false⟩,
              ⟨"High", d.highs, "rgba(54,162,235,1)", "rgba(54,162,235,0.25)", false⟩,
              ⟨"Low", d.lows, "rgba(75,192,192,1)", "rgba(75,192,192,0.25)", false⟩,
              ⟨"Close", d.closes, "rgba(255,206,86,1)", "rgba(255,206,86,0.25)", false⟩ ]
          yBeginAtZero := false
          yTitleDisplay := true
          yTitleText := "Price ($)"
          xTitleDisplay := true
          xTitleText := "Date"
          ticksMaxRotation := 45
          ticksMinRotation := 45
          legendDisplay := true
          legendPosition := "top" }

/-- The POST form fields of app.py's index route.  `chart_type` and
`time_series` are taken after the `int(...)` conversion (its failure mode is
outside every claim). -/
structure FormInput where
  symbol : String
  chart_type : Int
  time_series : Nat
  start_date : String
  end_date : String

/-- What one submission produces: a flashed message with its category and no
chart, or a success flash together with the rendered chart. -/
inductive Outcome where
  | flashed (msg category : String)
  | success (msg : String) (chart : ChartSpec)

/-- Result of the POST branch of app.py `index`, with `fetchCalled`
recording whether control reached the `fetch_stock_data` call (app.py line
71). -/
structure IndexResult where
  outcome : Outcome
  fetchCalled : Bool

/-- app.py lines 39-101: validate the form (each failure flashes its own
message and returns before any fetch), fetch, filter, format, render.
An exception raised by the model layer propagates out of the route. -/
def index_post (apikey : String) (form : FormInput) (net : NetResult) :
    Except PyErr IndexResult :=
  let selected_symbol := pyUpper (pyStrip form.symbol)
  let start_date_str := pyStrip form.start_date
  let end_date_str := pyStrip form.end_date
  if selected_symbol = "" then
    .ok ⟨.flashed "Please select a stock symbol." "error", false⟩
  else if start_date_str = "" ∨ end_date_str = "" then
    .ok ⟨.flashed "Please provide both start and end dates." "error", false⟩
  else
    match validate_date_format start_date_str, validate_date_format end_date_str with
    | some start_d, some end_d =>
      if validate_date_range start_d end_d then
        match fetch_stock_data selected_symbol form.time_series apikey net with
        | .error e => .error e
        | .ok none =>
          .ok ⟨.flashed "Failed to fetch stock data. Please check the symbol and try again."
                "error", true⟩
        | .ok (some raw) =>
          match raw with
          | [] =>
            .ok ⟨.flashed "Failed to fetch stock data. Please check the symbol and try again."
                  "error", true⟩
          | _ =>
            match filter_by_date_range raw form.time_series start_d end_d with
            | .error e => .error e
            | .ok filtered =>
              match get_formatted_data filtered with
              | .error e => .error e
              | .ok none =>
                .ok ⟨.flashed ("No data found for " ++ selected_symbol ++
                      " in the date range " ++ start_date_str ++ " to " ++ end_date_str ++ ".")
                      "warning", true⟩
              | .ok (some f) =>
                match f.dates with
                | [] =>
                  .ok ⟨.flashed ("No data found for " ++ selected_symbol ++
                        " in the date range " ++ start_date_str ++ " to " ++ end_date_str ++ ".")
                        "warning", true⟩
                | _ =>
                  match create_chart (some f) selected_symbol form.chart_type
                      start_date_str end_date_str with
                  | none => .ok ⟨.flashed "Failed to generate chart." "error", true⟩
                  | some ch =>
                    .ok ⟨.success ("Successfully generated chart for " ++ selected_symbol ++
                          " with " ++ toString f.dates.length ++ " data points.") ch, true⟩
      else
        .ok ⟨.flashed "End date must be on or after the start date." "error", false⟩
    | _, _ =>
      .ok ⟨.flashed "Invalid date format. Please use YYYY-MM-DD." "error", false⟩

/-! ## Helper lemmas -/

lemma function_map_none_iff {g : Nat} :
    function_map g = none ↔ ¬(g = 1 ∨ g = 2 ∨ g = 3 ∨ g = 4) := by
  unfold function_map
  split_ifs <;> simp_all

lemma time_series_key_map_none_iff {g : Nat} :
    time_series_key_map g = none ↔ ¬(g = 1 ∨ g = 2 ∨ g = 3 ∨ g = 4) := by
  unfold time_series_key_map
  split_ifs <;> simp_all

/-! ## C5: request parameter construction -/

/-- C5: for every granularity code g in {1,2,3,4}, the request parameters
built for `fetch_stock_data` contain the function name mapped to g
(1=TIME_SERIES_INTRADAY, 2=TIME_SERIES_DAILY, 3=TIME_SERIES_WEEKLY,
4=TIME_SERIES_MONTHLY) together with outputsize=full, and the interval
parameter (60min) is present if and only if g = 1. -/
theorem fetch_builds_correct_params (symbol apikey : String) (g : Nat)
    (hg : g = 1 ∨ g = 2 ∨ g = 3 ∨ g = 4) :
    ∃ ps, build_params symbol g apikey = .ok ps ∧
      (g = 1 → ("function", "TIME_SERIES_INTRADAY") ∈ ps) ∧
      (g = 2 → ("function", "TIME_SERIES_DAILY") ∈ ps) ∧
      (g = 3 → ("function", "TIME_SERIES_WEEKLY") ∈ ps) ∧
      (g = 4 → ("function", "TIME_SERIES_MONTHLY") ∈ ps) ∧
      ("outputsize", "full") ∈ ps ∧
      (("interval", "60min") ∈ ps ↔ g = 1) := by
  rcases hg with rfl | rfl | rfl | rfl <;>
    exact ⟨_, rfl, by simp [build_params, function_map], by simp [build_params, function_map],
      by simp [build_params, function_map], by simp [build_params, function_map],
      by simp [build_params, function_map], by simp [build_params, function_map]⟩

theorem fetch_builds_correct_params_witness :
    build_params "IBM" 2 "demo" =
      .ok [("function", "TIME_SERIES_DAILY"), ("symbol", "IBM"), ("apikey", "demo"),
           ("outputsize", "full")] ∧
    ("function", "TIME_SERIES_DAILY") ∈ [("function", "TIME_SERIES_DAILY"), ("symbol", "IBM"),
      ("apikey", "demo"), ("outputsize", "full")] ∧
    ("outputsize", "full") ∈ [("function", "TIME_SERIES_DAILY"), ("symbol", "IBM"),
      ("apikey", "demo"), ("outputsize", "full")] ∧
    ("interval", "60min") ∉ [("function", "TIME_SERIES_DAILY"), ("symbol", "IBM"),
      ("apikey", "demo"), ("outputsize", "full")] := by
  obtain ⟨ps, h1, _, h2, _, _, h6, h7⟩ :=
    fetch_builds_correct_params "IBM" "demo" 2 (Or.inr (Or.inl rfl))
  have hconc : build_params "IBM" 2 "demo" =
      .ok [("function", "TIME_SERIES_DAILY"), ("symbol", "IBM"), ("apikey", "demo"),
           ("outputsize", "full")] := rfl
  have hps : ps = [("function", "TIME_SERIES_DAILY"), ("symbol", "IBM"), ("apikey", "demo"),
      ("outputsize", "full")] := by
    have := h1.symm.trans hconc
    exact Except.ok.inj this
  subst hps
  exact ⟨hconc, h2 rfl, h6, fun hmem => absurd (h7.mp hmem) (by decide)⟩

/-! ## C3: maybe-missing lookups -/

/-- C3 counterexample: for the unmapped granularity code 5, both
`filter_by_date_range` and `fetch_stock_data` raise `KeyError` from the
unchecked dictionary subscript instead of returning an explicit
absent/empty result, refuting the claim as stated. -/
theorem unmapped_granularity_raises_counterexample :
    filter_by_date_range [] 5 ⟨2024, 1, 1⟩ ⟨2024, 1, 2⟩ = .error .keyError ∧
    fetch_stock_data "IBM" 5 "demo" .exn = .error .keyError ∧
    build_params "IBM" 5 "demo" = .error .keyError :=
  ⟨rfl, rfl, rfl⟩

/-- C3 amended: when the granularity's time-series key is absent from the
raw response, processing yields the explicit Empty result (empty filtered
dict, then None) rather than a crash; but when the granularity code itself
is unmapped (outside 1-4), both `fetch_stock_data` and
`filter_by_date_range` raise `KeyError` from the unchecked dictionary
lookup. -/
theorem missing_key_empty_unmapped_raises (raw : List (String × JsonVal)) (g : Nat)
    (s e : Date) (key symbol apikey : String) (net : NetResult) :
    (time_series_key_map g = some key → assocLookup raw key = none →
      filter_by_date_range raw g s e = .ok [] ∧ get_formatted_data [] = .ok none) ∧
    (time_series_key_map g = none →
      filter_by_date_range raw g s e = .error .keyError ∧
      fetch_stock_data symbol g apikey net = .error .keyError) ∧
    (time_series_key_map g = none ↔ ¬(g = 1 ∨ g = 2 ∨ g = 3 ∨ g = 4)) := by
  refine ⟨?_, ?_, time_series_key_map_none_iff⟩
  · intro hk hl
    refine ⟨?_, rfl⟩
    simp only [filter_by_date_range, hk, hl]
  · intro hk
    have hfm : function_map g = none :=
      function_map_none_iff.mpr (time_series_key_map_none_iff.mp hk)
    constructor
    · simp only [filter_by_date_range, hk]
    · simp only [fetch_stock_data, build_params, hfm]

theorem missing_key_empty_unmapped_raises_witness :
    (filter_by_date_range [("foo", JsonVal.jstr "x")] 2 ⟨2024, 1, 1⟩ ⟨2024, 1, 2⟩ = .ok [] ∧
      get_formatted_data [] = .ok none) ∧
    (filter_by_date_range [("foo", JsonVal.jstr "x")] 5 ⟨2024, 1, 1⟩ ⟨2024, 1, 2⟩ =
        .error .keyError ∧
      fetch_stock_data "IBM" 5 "demo" NetResult.exn = .error .keyError) :=
  ⟨(missing_key_empty_unmapped_raises [("foo", JsonVal.jstr "x")] 2 ⟨2024, 1, 1⟩ ⟨2024, 1, 2⟩
      "Time Series (Daily)" "IBM" "demo" .exn).1 rfl rfl,
   (missing_key_empty_unmapped_raises [("foo", JsonVal.jstr "x")] 5 ⟨2024, 1, 1⟩ ⟨2024, 1, 2⟩
      "unused" "IBM" "demo" .exn).2.1 rfl⟩

/-! ## C1 / C10: the date-range filter -/

lemma keepEntry_iff (s e : Date) (kv : String × JsonVal) :
    keepEntry s e kv = true ↔
      ∃ d, entryDate kv = some d ∧ dateLeB s d = true ∧ dateLeB d e = true := by
  unfold keepEntry
  cases h : entryDate kv <;> simp [h, Bool.and_eq_true]

lemma filterEntries_eq_filter (s e : Date) (entries : List (String × JsonVal))
    (h : ∀ kv ∈ entries, (entryDate kv).isSome) :
    filterEntries s e entries = .ok (entries.filter (keepEntry s e)) := by
  induction entries with
  | nil => rfl
  | cons kv rest ih =>
    obtain ⟨k, v⟩ := kv
    obtain ⟨d, hd⟩ := Option.isSome_iff_exists.mp (h _ (List.mem_cons_self _ _))
    have hrest := ih (fun kv hkv => h kv (List.mem_cons_of_mem _ hkv))
    have hkeep : keepEntry s e (k, v) = (dateLeB s d && dateLeB d e) := by
      unfold keepEntry; rw [hd]
    unfold entryDate at hd
    unfold filterEntries
    cases hft : firstToken k.data with
    | error err => rw [hft] at hd; simp at hd
    | ok tok =>
      rw [hft] at hd
      simp only [] at hd
      simp only [hd, hrest, List.filter_cons, hkeep]
      cases hb : (dateLeB s d && dateLeB d e) <;> simp [hb]

/-- C1: for every raw time series and date range [s,e] with e ≥ s, where the
granularity's series is present and every entry key's date portion parses,
`filter_by_date_range` retains exactly the entries whose date component d
satisfies s ≤ d ≤ e (both bounds inclusive); everything outside the range
is dropped. -/
theorem filter_retains_exactly_in_range (raw : List (String × JsonVal)) (g : Nat)
    (key : String) (entries : List (String × JsonVal)) (s e : Date)
    (_hrange : dateLeB s e = true)
    (hg : time_series_key_map g = some key)
    (hlook : assocLookup raw key = some (.jobj entries))
    (hparse : ∀ kv ∈ entries, (entryDate kv).isSome) :
    filter_by_date_range raw g s e = .ok (entries.filter (keepEntry s e)) ∧
    ∀ kv, kv ∈ entries.filter (keepEntry s e) ↔
      (kv ∈ entries ∧
        ∃ d, entryDate kv = some d ∧ dateLeB s d = true ∧ dateLeB d e = true) := by
  constructor
  · simp only [filter_by_date_range, hg, hlook]
    exact filterEntries_eq_filter s e entries hparse
  · intro kv
    rw [List.mem_filter, keepEntry_iff]

def sampleVal : JsonVal :=
  .jobj [("1. open", .jstr "1"), ("2. high", .jstr "2"),
         ("3. low", .jstr "0.5"), ("4. close", .jstr "1.5")]

def sampleEntries : List (String × JsonVal) :=
  [("2024-01-02", sampleVal), ("2024-01-05", sampleVal)]

def sampleRaw : List (String × JsonVal) := [("Time Series (Daily)", .jobj sampleEntries)]

theorem filter_retains_exactly_in_range_witness :
    filter_by_date_range sampleRaw 2 ⟨2024, 1, 1⟩ ⟨2024, 1, 3⟩ =
      .ok (sampleEntries.filter (keepEntry ⟨2024, 1, 1⟩ ⟨2024, 1, 3⟩)) ∧
    ("2024-01-02", sampleVal) ∈ sampleEntries.filter (keepEntry ⟨2024, 1, 1⟩ ⟨2024, 1, 3⟩) ∧
    ("2024-01-05", sampleVal) ∉ sampleEntries.filter (keepEntry ⟨2024, 1, 1⟩ ⟨2024, 1, 3⟩) := by
  have h := filter_retains_exactly_in_range sampleRaw 2 "Time Series (Daily)" sampleEntries
    ⟨2024, 1, 1⟩ ⟨2024, 1, 3⟩ (by decide) rfl rfl (by decide)
  refine ⟨h.1, ?_, ?_⟩
  · exact (h.2 _).mpr ⟨List.mem_cons_self _ _, ⟨2024, 1, 2⟩, by decide, by decide, by decide⟩
  · intro hmem
    obtain ⟨-, d, hd, hs, he⟩ := (h.2 _).mp hmem
    rw [show entryDate ("2024-01-05", sampleVal) = some ⟨2024, 1, 5⟩ from by decide] at hd
    cases Option.some.inj hd
    exact absurd he (by decide)

/-- C10: `filter_by_date_range` is total only under the precondition that
every key of the selected sub-mapping has a first whitespace-separated
token parsing as a valid YYYY-MM-DD date — under it the filter returns
normally — while a raw series containing a malformed date key makes the
unguarded `strptime` raise (ValueError) instead of skipping the entry or
returning Empty. -/
theorem filter_total_only_if_keys_parse (raw : List (String × JsonVal)) (g : Nat)
    (key : String) (entries : List (String × JsonVal)) (s e : Date)
    (hg : time_series_key_map g = some key)
    (hlook : assocLookup raw key = some (.jobj entries)) :
    ((∀ kv ∈ entries, (entryDate kv).isSome) →
      ∃ l, filter_by_date_range raw g s e = .ok l) ∧
    filter_by_date_range [("Time Series (Daily)", .jobj [("2024-99-01", sampleVal)])] 2 s e =
      .error .valueError := by
  constructor
  · intro hparse
    refine ⟨entries.filter (keepEntry s e), ?_⟩
    simp only [filter_by_date_range, hg, hlook]
    exact filterEntries_eq_filter s e entries hparse
  · rfl

theorem filter_total_only_if_keys_parse_witness :
    (filter_by_date_range sampleRaw 2 ⟨2024, 1, 1⟩ ⟨2024, 1, 3⟩).isOk = true ∧
    filter_by_date_range [("Time Series (Daily)", .jobj [("2024-99-01", sampleVal)])] 2
      ⟨2024, 1, 1⟩ ⟨2024, 1, 3⟩ = .error .valueError := by
  have h := filter_total_only_if_keys_parse sampleRaw 2 "Time Series (Daily)" sampleEntries
    ⟨2024, 1, 1⟩ ⟨2024, 1, 3⟩ rfl rfl
  obtain ⟨l, hl⟩ := h.1 (by decide)
  exact ⟨by rw [hl]; rfl, h.2⟩

/-! ## C2: equal-length decomposition -/

lemma formatEntries_lengths (m : List (String × JsonVal)) (ks : List String) (f : Formatted)
    (h : formatEntries m ks = .ok f) :
    f.dates.length = ks.length ∧ f.opens.length = ks.length ∧
    f.highs.length = ks.length ∧ f.lows.length = ks.length ∧
    f.closes.length = ks.length := by
  induction ks generalizing f with
  | nil =>
    unfold formatEntries at h
    cases h
    exact ⟨rfl, rfl, rfl, rfl, rfl⟩
  | cons k ks ih =>
    unfold formatEntries at h
    cases h1 : assocLookup m k with
    | none => rw [h1] at h; simp at h
    | some v =>
      rw [h1] at h
      simp only [] at h
      cases h2 : firstToken k.data with
      | error e => rw [h2] at h; simp at h
      | ok tok =>
        rw [h2] at h
        simp only [] at h
        cases h3 : getField v "1. open" with
        | error e => rw [h3] at h; simp at h
        | ok o =>
          rw [h3] at h
          simp only [] at h
          cases h4 : getField v "2. high" with
          | error e => rw [h4] at h; simp at h
          | ok hi =>
            rw [h4] at h
            simp only [] at h
            cases h5 : getField v "3. low" with
            | error e => rw [h5] at h; simp at h
            | ok lo =>
              rw [h5] at h
              simp only [] at h
              cases h6 : getField v "4. close" with
              | error e => rw [h6] at h; simp at h
              | ok cl =>
                rw [h6] at h
                simp only [] at h
                cases h7 : formatEntries m ks with
                | error e => rw [h7] at h; simp at h
                | ok rest =>
                  rw [h7] at h
                  simp only [Except.ok.injEq] at h
                  obtain ⟨hd, ho, hh, hl, hc⟩ := ih rest h7
                  subst h
                  simp [hd, ho, hh, hl, hc]

lemma sortKeys_length (ks : List String) : (sortKeys ks).length = ks.length :=
  (List.perm_insertionSort strLeP ks).length_eq

/-- C2: for every filtered series, the four value sequences produced by
`get_formatted_data` and the dates sequence all have equal length, namely
the number of retained entries, and the result is the distinct Empty value
(None) exactly when zero entries were retained. -/
theorem formatted_lengths_eq_retained (filtered : List (String × JsonVal)) :
    (get_formatted_data filtered = .ok none ↔ filtered = []) ∧
    ∀ f, get_formatted_data filtered = .ok (some f) →
      f.dates.length = filtered.length ∧ f.opens.length = filtered.length ∧
      f.highs.length = filtered.length ∧ f.lows.length = filtered.length ∧
      f.closes.length = filtered.length := by
  cases hfl : filtered with
  | nil =>
    constructor
    · simp [get_formatted_data]
    · intro f h
      simp [get_formatted_data] at h
  | cons kv rest =>
    constructor
    · unfold get_formatted_data
      cases hfe : formatEntries (kv :: rest) (sortKeys ((kv :: rest).map Prod.fst)) <;>
        simp [hfe]
    · intro f h
      unfold get_formatted_data at h
      cases hfe : formatEntries (kv :: rest) (sortKeys ((kv :: rest).map Prod.fst)) with
      | error e => rw [hfe] at h; simp at h
      | ok f' =>
        rw [hfe] at h
        simp only [Except.ok.injEq, Option.some.injEq] at h
        subst h
        have hlen := formatEntries_lengths _ _ _ hfe
        rw [sortKeys_length, List.length_map] at hlen
        exact hlen

/-- The record `get_formatted_data` produces on `sampleEntries` (extracted
by evaluation, for use in closed statements). -/
def sampleFormatted : Formatted :=
  match get_formatted_data sampleEntries with
  | .ok (some f) => f
  | _ => ⟨[], [], [], [], []⟩

theorem formatted_lengths_eq_retained_witness :
    get_formatted_data sampleEntries = .ok (some sampleFormatted) ∧
    sampleFormatted.dates.length = sampleEntries.length ∧
    sampleFormatted.opens.length = sampleEntries.length ∧
    sampleFormatted.highs.length = sampleEntries.length ∧
    sampleFormatted.lows.length = sampleEntries.length ∧
    sampleFormatted.closes.length = sampleEntries.length ∧
    ¬ get_formatted_data sampleEntries = .ok none := by
  have hgf : get_formatted_data sampleEntries = .ok (some sampleFormatted) := rfl
  have h := formatted_lengths_eq_retained sampleEntries
  obtain ⟨h1, h2, h3, h4, h5⟩ := h.2 _ hgf
  refine ⟨hgf, h1, h2, h3, h4, h5, fun hc => ?_⟩
  have : sampleEntries = [] := h.1.mp hc
  simp [sampleEntries] at this

/-! ## C6: YYYY-MM-DD round-trip -/

/-- The decimal digit character for n (n ≥ 9 clamps, used only for n < 10). -/
def toDigit : Nat → Char
  | 0 => '0' | 1 => '1' | 2 => '2' | 3 => '3' | 4 => '4'
  | 5 => '5' | 6 => '6' | 7 => '7' | 8 => '8' | _ => '9'

/-- Zero-padded `YYYY-MM-DD` rendering of a date (the claim's input format;
the repository itself receives such strings from the date form fields). -/
def fmtDate (d : Date) : String :=
  String.mk [toDigit (d.year / 1000 % 10), toDigit (d.year / 100 % 10),
    toDigit (d.year / 10 % 10), toDigit (d.year % 10), '-',
    toDigit (d.month / 10 % 10), toDigit (d.month % 10), '-',
    toDigit (d.day / 10 % 10), toDigit (d.day % 10)]

/-- A representable calendar date (what `datetime` accepts). -/
def ValidDate (d : Date) : Prop :=
  1 ≤ d.year ∧ d.year ≤ 9999 ∧ 1 ≤ d.month ∧ d.month ≤ 12 ∧ 1 ≤ d.day ∧
    d.day ≤ daysInMonth d.year d.month

instance : DecidablePred ValidDate := fun d => by unfold ValidDate; infer_instance

lemma isDigitB_toDigit (n : Nat) : isDigitB (toDigit n) = true := by
  unfold toDigit; split <;> decide

lemma digitVal_toDigit (n : Nat) (h : n < 10) : digitVal (toDigit n) = n := by
  interval_cases n <;> decide

lemma mod10_lt (n : Nat) : n % 10 < 10 := Nat.mod_lt _ (by norm_num)

lemma daysInMonth_le_31 (y m : Nat) : daysInMonth y m ≤ 31 := by
  unfold daysInMonth
  split_ifs <;> norm_num

/-- Evaluation of `strpDate` on a fixed-width `YYYY-MM-DD` prefix followed
by an arbitrary tail. -/
lemma strpDate_canonical (a0 a1 a2 a3 b1 b0 c1 c0 : Char) (t : List Char)
    (h0 : isDigitB a0 = true) (h1 : isDigitB a1 = true) (h2 : isDigitB a2 = true)
    (h3 : isDigitB a3 = true) (h4 : isDigitB b1 = true) (h5 : isDigitB b0 = true)
    (h6 : isDigitB c1 = true) (h7 : isDigitB c0 = true) :
    strpDate (a0 :: a1 :: a2 :: a3 :: '-' :: b1 :: b0 :: '-' :: c1 :: c0 :: t) =
      if t = [] then
        (if 1 ≤ digitsVal [a0, a1, a2, a3] ∧ 1 ≤ digitsVal [b1, b0] ∧
            digitsVal [b1, b0] ≤ 12 ∧ 1 ≤ digitsVal [c1, c0] ∧
            digitsVal [c1, c0] ≤ daysInMonth (digitsVal [a0, a1, a2, a3]) (digitsVal [b1, b0])
         then some ⟨digitsVal [a0, a1, a2, a3], digitsVal [b1, b0], digitsVal [c1, c0]⟩
         else none)
      else none := by
  unfold strpDate takeDigits2
  simp only [h0, h1, h2, h3, h4, h5, h6, h7, Bool.and_self, if_true]
  cases t <;> simp

/-- C6: formatting a calendar date as `YYYY-MM-DD` and then applying
`validate_date_format` returns the original date; a malformed date string
such as `2024-13-40` yields the explicit failure value None. -/
theorem validate_date_format_roundtrip (d : Date) (h : ValidDate d) :
    validate_date_format (fmtDate d) = some d ∧
    validate_date_format "2024-13-40" = none := by
  obtain ⟨hy1, hy2, hm1, hm2, hd1, hd2⟩ := h
  constructor
  · show strpDate [toDigit (d.year / 1000 % 10), toDigit (d.year / 100 % 10),
      toDigit (d.year / 10 % 10), toDigit (d.year % 10), '-',
      toDigit (d.month / 10 % 10), toDigit (d.month % 10), '-',
      toDigit (d.day / 10 % 10), toDigit (d.day % 10)] = some d
    rw [strpDate_canonical _ _ _ _ _ _ _ _ [] (isDigitB_toDigit _) (isDigitB_toDigit _)
      (isDigitB_toDigit _) (isDigitB_toDigit _) (isDigitB_toDigit _) (isDigitB_toDigit _)
      (isDigitB_toDigit _) (isDigitB_toDigit _)]
    have hy : digitsVal [toDigit (d.year / 1000 % 10), toDigit (d.year / 100 % 10),
        toDigit (d.year / 10 % 10), toDigit (d.year % 10)] = d.year := by
      simp [digitsVal, digitVal_toDigit, mod10_lt]
      omega
    have hm : digitsVal [toDigit (d.month / 10 % 10), toDigit (d.month % 10)] = d.month := by
      simp [digitsVal, digitVal_toDigit, mod10_lt]
      omega
    have hdd : digitsVal [toDigit (d.day / 10 % 10), toDigit (d.day % 10)] = d.day := by
      have h31 := daysInMonth_le_31 d.year d.month
      simp [digitsVal, digitVal_toDigit, mod10_lt]
      omega
    rw [hy, hm, hdd]
    rw [if_pos rfl, if_pos ⟨hy1, hm1, hm2, hd1, hd2⟩]
  · decide

theorem validate_date_format_roundtrip_witness :
    validate_date_format (fmtDate ⟨2024, 1, 5⟩) = some ⟨2024, 1, 5⟩ ∧
    validate_date_format "2024-13-40" = none :=
  validate_date_format_roundtrip ⟨2024, 1, 5⟩ (by decide)

/-! ## C9: chart specification -/

/-- Number of datasets of a chart specification. -/
def ChartSpec.datasetCount (s : ChartSpec) : Nat := s.datasets.length

/-- Labels of the datasets, in order. -/
def ChartSpec.datasetLabels (s : ChartSpec) : List String := s.datasets.map Dataset.label

/-- Data series of the datasets, in order. -/
def ChartSpec.datasetDatas (s : ChartSpec) : List (List Rat) := s.datasets.map Dataset.data

/-- Border colors of the datasets, in order. -/
def ChartSpec.datasetBorderColors (s : ChartSpec) : List String :=
  s.datasets.map Dataset.borderColor

/-- Fill flags of the datasets, in order. -/
def ChartSpec.datasetFills (s : ChartSpec) : List Bool := s.datasets.map Dataset.fill

/-- C9: `create_chart` returns None whenever the series is absent or its
dates are empty; for every non-empty series it returns a specification
whose labels are exactly the series' dates, with exactly four non-filled
datasets (Open/High/Low/Close, each with its fixed color), bar kind exactly
when chartKind = 1 and line otherwise, a visible legend, titled axes,
45-degree tick rotation, and the symbol and display range in the title. -/
theorem create_chart_spec (data : Option Formatted) (symbol : String) (chart_type : Int)
    (start_date end_date : String) :
    (data = none → create_chart data symbol chart_type start_date end_date = none) ∧
    (∀ f, data = some f → f.dates = [] →
      create_chart data symbol chart_type start_date end_date = none) ∧
    (∀ f, data = some f → f.dates ≠ [] →
      ((create_chart data symbol chart_type start_date end_date).map ChartSpec.labels =
          some f.dates ∧
       (create_chart data symbol chart_type start_date end_date).map ChartSpec.datasetCount =
          some 4 ∧
       (create_chart data symbol chart_type start_date end_date).map ChartSpec.datasetLabels =
          some ["Open", "High", "Low", "Close"] ∧
       (create_chart data symbol chart_type start_date end_date).map ChartSpec.datasetDatas =
          some [f.opens, f.highs, f.lows, f.closes] ∧
       (create_chart data symbol chart_type start_date end_date).map
          ChartSpec.datasetBorderColors =
          some ["rgba(255,99,132,1)", "rgba(54,162,235,1)", "rgba(75,192,192,1)",
                "rgba(255,206,86,1)"] ∧
       (create_chart data symbol chart_type start_date end_date).map ChartSpec.datasetFills =
          some [false, false, false, false] ∧
       (create_chart data symbol chart_type start_date end_date).map ChartSpec.typ =
          some (if chart_type = 1 then "bar" else "line") ∧
       (create_chart data symbol chart_type start_date end_date).map ChartSpec.legendDisplay =
          some true ∧
       (create_chart data symbol chart_type start_date end_date).map ChartSpec.yTitleDisplay =
          some true ∧
       (create_chart data symbol chart_type start_date end_date).map ChartSpec.yTitleText =
          some "Price ($)" ∧
       (create_chart data symbol chart_type start_date end_date).map ChartSpec.xTitleDisplay =
          some true ∧
       (create_chart data symbol chart_type start_date end_date).map ChartSpec.xTitleText =
          some "Date" ∧
       (create_chart data symbol chart_type start_date end_date).map ChartSpec.ticksMaxRotation =
          some 45 ∧
       (create_chart data symbol chart_type start_date end_date).map ChartSpec.ticksMinRotation =
          some 45 ∧
       (create_chart data symbol chart_type start_date end_date).map ChartSpec.titleText =
          some ("Stock Data for " ++ symbol ++ ": " ++ start_date ++ " to " ++ end_date))) := by
  refine ⟨?_, ?_, ?_⟩
  · rintro rfl; rfl
  · rintro f rfl hd
    simp [create_chart, hd]
  · rintro f rfl hd
    cases hdt : f.dates with
    | nil => exact absurd hdt hd
    | cons a l =>
      simp [create_chart, hdt, ChartSpec.datasetCount, ChartSpec.datasetLabels,
        ChartSpec.datasetDatas, ChartSpec.datasetBorderColors, ChartSpec.datasetFills]

theorem create_chart_spec_witness :
    (create_chart (some sampleFormatted) "AAPL" 2 "2024-01-01" "2024-01-31").map
        ChartSpec.labels = some sampleFormatted.dates ∧
    (create_chart (some sampleFormatted) "AAPL" 2 "2024-01-01" "2024-01-31").map
        ChartSpec.datasetCount = some 4 ∧
    (create_chart (some sampleFormatted) "AAPL" 2 "2024-01-01" "2024-01-31").map
        ChartSpec.datasetFills = some [false, false, false, false] ∧
    (create_chart (some sampleFormatted) "AAPL" 2 "2024-01-01" "2024-01-31").map
        ChartSpec.typ = some "line" ∧
    (create_chart (some sampleFormatted) "AAPL" 2 "2024-01-01" "2024-01-31").map
        ChartSpec.titleText =
      some ("Stock Data for " ++ "AAPL" ++ ": " ++ "2024-01-01" ++ " to " ++ "2024-01-31") ∧
    create_chart none "AAPL" 2 "2024-01-01" "2024-01-31" = none := by
  have h := create_chart_spec (some sampleFormatted) "AAPL" 2 "2024-01-01" "2024-01-31"
  have hne : sampleFormatted.dates ≠ [] := by decide
  obtain ⟨h1, h2, h3, h4, h5, h6, h7, h8, h9, h10, h11, h12, h13, h14, h15⟩ :=
    h.2.2 sampleFormatted rfl hne
  have hnone := (create_chart_spec none "AAPL" 2 "2024-01-01" "2024-01-31").1 rfl
  refine ⟨h1, h2, h6, ?_, h15, hnone⟩
  rw [h7]; decide

/-! ## C8 / C7: the submission pipeline -/

lemma digitsVal_lt (cs : List Char) (h : ∀ c ∈ cs, isDigitB c = true) :
    digitsVal cs < 10 ^ cs.length := by
  induction cs with
  | nil => simp [digitsVal]
  | cons c cs ih =>
    have hc : digitVal c ≤ 9 := by
      have := h c (List.mem_cons_self _ _)
      unfold isDigitB at this
      simp only [Bool.and_eq_true, decide_eq_true_eq] at this
      unfold digitVal
      omega
    have hcs := ih (fun x hx => h x (List.mem_cons_of_mem _ hx))
    simp only [digitsVal, List.length_cons]
    calc digitVal c * 10 ^ cs.length + digitsVal cs
        < digitVal c * 10 ^ cs.length + 10 ^ cs.length := by omega
      _ = (digitVal c + 1) * 10 ^ cs.length := by ring
      _ ≤ 10 * 10 ^ cs.length := Nat.mul_le_mul_right _ (by omega)
      _ = 10 ^ (cs.length + 1) := by ring

lemma strpDate_bounds (s : List Char) (d : Date) (h : strpDate s = some d) :
    1 ≤ d.year ∧ d.year ≤ 9999 ∧ 1 ≤ d.month ∧ d.month ≤ 12 ∧ 1 ≤ d.day ∧ d.day ≤ 31 := by
  unfold strpDate at h
  split at h
  case h_2 => exact absurd h (by simp)
  case h_1 y3 y2 y1 y0 rest1 =>
    split at h
    case isFalse => exact absurd h (by simp)
    case isTrue hdig =>
      rcases htd : takeDigits2 rest1 with ⟨ms, rest2⟩
      rw [htd] at h
      simp only [] at h
      split at h
      case isTrue => exact absurd h (by simp)
      case isFalse hms =>
        split at h
        case h_2 => exact absurd h (by simp)
        case h_1 rest3 =>
          rcases htd2 : takeDigits2 rest3 with ⟨ds, rest4⟩
          rw [htd2] at h
          simp only [] at h
          split at h
          case isTrue => exact absurd h (by simp)
          case isFalse hds =>
            split at h
            case isFalse => exact absurd h (by simp)
            case isTrue hr4 =>
              split at h
              case isFalse => exact absurd h (by simp)
              case isTrue hcond =>
                obtain ⟨hy1, hm1, hm2, hd1, hd2⟩ := hcond
                have hd := Option.some.inj h
                subst hd
                simp only [Bool.and_eq_true] at hdig
                obtain ⟨⟨⟨hy3, hy2'⟩, hy1'⟩, hy0⟩ := hdig
                have hylt : digitsVal [y3, y2, y1, y0] < 10 ^ 4 := by
                  apply digitsVal_lt
                  intro c hc
                  simp only [List.mem_cons, List.not_mem_nil, or_false] at hc
                  rcases hc with rfl | rfl | rfl | rfl <;> assumption
                have h31 := daysInMonth_le_31 (digitsVal [y3, y2, y1, y0]) (digitsVal ms)
                dsimp only
                exact ⟨hy1, by omega, hm1, hm2, hd1, by omega⟩

lemma dateLeB_iff_val (a b : Date) (ham : a.month ≤ 12) (had : a.day ≤ 31)
    (hbm : b.month ≤ 12) (hbd : b.day ≤ 31) :
    dateLeB a b = true ↔ a.val ≤ b.val := by
  unfold dateLeB Date.val
  simp only [Bool.or_eq_true, Bool.and_eq_true, decide_eq_true_eq, beq_iff_eq]
  omega

lemma validate_date_format_some_ne_empty (s : String) (d : Date)
    (h : validate_date_format s = some d) : s ≠ "" := by
  intro hs
  subst hs
  rw [show validate_date_format "" = none from rfl] at h
  exact Option.noConfusion h

/-- C8: a submission whose end date is strictly before its start date is
rejected with the dedicated validation message before any fetch occurs
(`fetchCalled = false`), and `validate_date_range start end` is true
exactly when end ≥ start. -/
theorem end_before_start_rejected (apikey : String) (form : FormInput) (net : NetResult)
    (sd ed : Date)
    (hsym : pyUpper (pyStrip form.symbol) ≠ "")
    (hs : validate_date_format (pyStrip form.start_date) = some sd)
    (he : validate_date_format (pyStrip form.end_date) = some ed)
    (hlt : dateLeB sd ed = false) :
    index_post apikey form net =
      .ok ⟨.flashed "End date must be on or after the start date." "error", false⟩ ∧
    (validate_date_range sd ed = true ↔ sd.val ≤ ed.val) := by
  have hs' := validate_date_format_some_ne_empty _ _ hs
  have he' := validate_date_format_some_ne_empty _ _ he
  constructor
  · simp [index_post, hsym, hs', he', hs, he, validate_date_range, hlt]
  · obtain ⟨-, -, -, hm1, -, hd1⟩ := strpDate_bounds _ _ hs
    obtain ⟨-, -, -, hm2, -, hd2⟩ := strpDate_bounds _ _ he
    exact dateLeB_iff_val sd ed hm1 hd1 hm2 hd2

theorem end_before_start_rejected_witness :
    index_post "demo" ⟨"ibm", 2, 2, "2024-02-01", "2024-01-01"⟩ NetResult.exn =
      .ok ⟨.flashed "End date must be on or after the start date." "error", false⟩ ∧
    (validate_date_range ⟨2024, 2, 1⟩ ⟨2024, 1, 1⟩ = true ↔
      Date.val ⟨2024, 2, 1⟩ ≤ Date.val ⟨2024, 1, 1⟩) :=
  end_before_start_rejected "demo" ⟨"ibm", 2, 2, "2024-02-01", "2024-01-01"⟩ NetResult.exn
    ⟨2024, 2, 1⟩ ⟨2024, 1, 1⟩ (by decide) (by decide) (by decide) (by decide)

/-- C7: a successful fetch followed by filtering that retains zero entries
produces the Empty outcome, surfaced as a warning that names the symbol and
the requested start and end dates, in the "warning" category — distinct
from the generic fetch-failure error. -/
theorem empty_result_is_distinct_warning (apikey : String) (form : FormInput)
    (net : NetResult) (sd ed : Date) (raw : List (String × JsonVal))
    (hsym : pyUpper (pyStrip form.symbol) ≠ "")
    (hs : validate_date_format (pyStrip form.start_date) = some sd)
    (he : validate_date_format (pyStrip form.end_date) = some ed)
    (hrange : dateLeB sd ed = true)
    (hfetch : fetch_stock_data (pyUpper (pyStrip form.symbol)) form.time_series apikey net =
      .ok (some raw))
    (hraw : raw ≠ [])
    (hfilter : filter_by_date_range raw form.time_series sd ed = .ok []) :
    index_post apikey form net =
      .ok ⟨.flashed ("No data found for " ++ pyUpper (pyStrip form.symbol) ++
            " in the date range " ++ pyStrip form.start_date ++ " to " ++
            pyStrip form.end_date ++ ".") "warning", true⟩ ∧
    "warning" ≠ "error" := by
  have hs' := validate_date_format_some_ne_empty _ _ hs
  have he' := validate_date_format_some_ne_empty _ _ he
  refine ⟨?_, by decide⟩
  cases raw with
  | nil => exact absurd rfl hraw
  | cons kv rest =>
    simp [index_post, hsym, hs', he', hs, he, validate_date_range, hrange, hfetch, hfilter,
      get_formatted_data]

/-! ## C4: lexicographic order on YYYY-MM-DD keys is chronological -/

/-- A timestamp key in the fixed-width `YYYY-MM-DD` format, optionally
followed by anything (e.g. a time-of-day). -/
def canonicalKeyB : List Char → Bool
  | c0 :: c1 :: c2 :: c3 :: c4 :: c5 :: c6 :: c7 :: c8 :: c9 :: _ =>
    isDigitB c0 && isDigitB c1 && isDigitB c2 && isDigitB c3 && (c4.toNat == 45) &&
    isDigitB c5 && isDigitB c6 && (c7.toNat == 45) && isDigitB c8 && isDigitB c9
  | _ => false

/-- The parsed calendar date of a timestamp key, as the code computes it
(`strptime(key.split()[0], "%Y-%m-%d")`). -/
def keyDateL (k : List Char) : Option Date :=
  match firstToken k with
  | .error _ => none
  | .ok tok => strpDate tok

/-- `keyDateL` on strings. -/
def keyDate (k : String) : Option Date := keyDateL k.data

/-- Comparison key of a timestamp string: the `val` of its parsed date
(0 when it does not parse; all keys considered here parse). -/
def dateValOf (k : String) : Nat :=
  match keyDate k with
  | some d => d.val
  | none => 0

/-- Chronological comparison of two timestamp keys. -/
def dateValLe (a b : String) : Prop := dateValOf a ≤ dateValOf b

lemma char_toNat_inj {a b : Char} (h : a.toNat = b.toNat) : a = b :=
  Char.ext (UInt32.ext h)

lemma isDigitB_toNat {c : Char} (h : isDigitB c = true) : 48 ≤ c.toNat ∧ c.toNat ≤ 57 := by
  unfold isDigitB at h
  simp only [Bool.and_eq_true, decide_eq_true_eq] at h
  exact h

lemma isSpaceB_eq_true {c : Char} :
    isSpaceB c = true ↔ (c.toNat = 32 ∨ (9 ≤ c.toNat ∧ c.toNat ≤ 13)) := by
  unfold isSpaceB
  simp [Bool.or_eq_true, Bool.and_eq_true, beq_iff_eq]

lemma isSpaceB_false_of_digit {c : Char} (h : isDigitB c = true) : isSpaceB c = false := by
  obtain ⟨h1, h2⟩ := isDigitB_toNat h
  rw [Bool.eq_false_iff]
  intro hs
  rcases isSpaceB_eq_true.mp hs with h3 | ⟨h3, h4⟩ <;> omega

lemma isSpaceB_dash : isSpaceB '-' = false := by decide

lemma all_digits4 {c0 c1 c2 c3 : Char} (h0 : isDigitB c0 = true) (h1 : isDigitB c1 = true)
    (h2 : isDigitB c2 = true) (h3 : isDigitB c3 = true) :
    ∀ c ∈ [c0, c1, c2, c3], isDigitB c = true := by
  intro c hc
  simp only [List.mem_cons, List.not_mem_nil, or_false] at hc
  rcases hc with rfl | rfl | rfl | rfl <;> assumption

lemma all_digits2 {c0 c1 : Char} (h0 : isDigitB c0 = true) (h1 : isDigitB c1 = true) :
    ∀ c ∈ [c0, c1], isDigitB c = true := by
  intro c hc
  simp only [List.mem_cons, List.not_mem_nil, or_false] at hc
  rcases hc with rfl | rfl <;> assumption

/-- Comparing two equal-length digit blocks under lexicographic order:
either the numeric values are strictly ordered, or the blocks are equal and
the comparison continues on the tails. -/
lemma lexLe_digits_split (as : List Char) : ∀ (bs r1 r2 : List Char),
    as.length = bs.length → (∀ c ∈ as, isDigitB c = true) → (∀ c ∈ bs, isDigitB c = true) →
    lexLeChars (as ++ r1) (bs ++ r2) = true →
    digitsVal as < digitsVal bs ∨ (as = bs ∧ lexLeChars r1 r2 = true) := by
  induction as with
  | nil =>
    intro bs r1 r2 hlen _ _ h
    have hbs : bs = [] := List.eq_nil_of_length_eq_zero hlen.symm
    subst hbs
    exact Or.inr ⟨rfl, by simpa using h⟩
  | cons a as ih =>
    intro bs r1 r2 hlen hda hdb h
    cases bs with
    | nil => simp at hlen
    | cons b bs' =>
      have hlen' : as.length = bs'.length := by simpa using hlen
      simp only [List.cons_append, lexLeChars] at h
      have hva : digitVal a ≤ 9 := by
        obtain ⟨x, y⟩ := isDigitB_toNat (hda a (List.mem_cons_self _ _))
        unfold digitVal; omega
      have hvb : digitVal b ≤ 9 := by
        obtain ⟨x, y⟩ := isDigitB_toNat (hdb b (List.mem_cons_self _ _))
        unfold digitVal; omega
      by_cases hab : a.toNat < b.toNat
      · left
        have hd1 : digitVal a < digitVal b := by
          obtain ⟨x1, _⟩ := isDigitB_toNat (hda a (List.mem_cons_self _ _))
          obtain ⟨x2, _⟩ := isDigitB_toNat (hdb b (List.mem_cons_self _ _))
          unfold digitVal; omega
        have hlt : digitsVal as < 10 ^ as.length :=
          digitsVal_lt _ (fun c hc => hda c (List.mem_cons_of_mem _ hc))
        simp only [digitsVal, hlen']
        have step1 : digitVal a * 10 ^ bs'.length + digitsVal as <
            (digitVal a + 1) * 10 ^ bs'.length := by
          have he : (digitVal a + 1) * 10 ^ bs'.length =
              digitVal a * 10 ^ bs'.length + 10 ^ bs'.length := by ring
          rw [he]
          rw [hlen'] at hlt
          exact Nat.add_lt_add_left hlt _
        have step2 : (digitVal a + 1) * 10 ^ bs'.length ≤ digitVal b * 10 ^ bs'.length :=
          Nat.mul_le_mul_right _ (by omega)
        have step3 : digitVal b * 10 ^ bs'.length ≤
            digitVal b * 10 ^ bs'.length + digitsVal bs' := Nat.le_add_right _ _
        omega
      · by_cases heq : a.toNat = b.toNat
        · rw [if_neg hab, if_pos heq] at h
          obtain hlt | ⟨heqs, hr⟩ := ih bs' r1 r2 hlen'
            (fun c hc => hda c (List.mem_cons_of_mem _ hc))
            (fun c hc => hdb c (List.mem_cons_of_mem _ hc)) h
          · left
            have hv : digitVal a = digitVal b := by unfold digitVal; omega
            simp only [digitsVal, hlen', hv]
            exact Nat.add_lt_add_left hlt _
          · right
            exact ⟨by rw [char_toNat_inj heq, heqs], hr⟩
        · rw [if_neg hab, if_neg heq] at h
          exact Bool.noConfusion h

lemma lexLe_cons_same (c : Char) (xs ys : List Char) :
    lexLeChars (c :: xs) (c :: ys) = lexLeChars xs ys := by
  simp [lexLeChars]

lemma lexLe_total (as : List Char) : ∀ bs, lexLeChars as bs = true ∨ lexLeChars bs as = true := by
  induction as with
  | nil => intro bs; exact Or.inl rfl
  | cons a as ih =>
    intro bs
    cases bs with
    | nil => exact Or.inr rfl
    | cons b bs' =>
      rcases Nat.lt_trichotomy a.toNat b.toNat with h | h | h
      · left; simp [lexLeChars, h]
      · rcases ih bs' with h' | h'
        · left; simp [lexLeChars, h, h']
        · right; simp [lexLeChars, h.symm, h']
      · right; simp [lexLeChars, h]

lemma lexLe_trans (as : List Char) : ∀ bs cs, lexLeChars as bs = true →
    lexLeChars bs cs = true → lexLeChars as cs = true := by
  induction as with
  | nil => intro bs cs _ _; rfl
  | cons a as ih =>
    intro bs cs h1 h2
    cases bs with
    | nil => exact Bool.noConfusion h1
    | cons b bs' =>
      cases cs with
      | nil => exact Bool.noConfusion h2
      | cons c cs' =>
        simp only [lexLeChars] at h1 h2 ⊢
        split_ifs at h1 h2 ⊢ <;>
          first
          | rfl
          | exact ih bs' cs' h1 h2
          | exact Bool.noConfusion h1
          | exact Bool.noConfusion h2
          | (exfalso; omega)

lemma canonicalKeyB_shape (k : List Char) (h : canonicalKeyB k = true) :
    ∃ c0 c1 c2 c3 c5 c6 c8 c9 rest,
      k = c0 :: c1 :: c2 :: c3 :: '-' :: c5 :: c6 :: '-' :: c8 :: c9 :: rest ∧
      isDigitB c0 = true ∧ isDigitB c1 = true ∧ isDigitB c2 = true ∧ isDigitB c3 = true ∧
      isDigitB c5 = true ∧ isDigitB c6 = true ∧ isDigitB c8 = true ∧ isDigitB c9 = true := by
  rcases k with _ | ⟨c0, _ | ⟨c1, _ | ⟨c2, _ | ⟨c3, _ | ⟨c4, _ | ⟨c5, _ | ⟨c6, _ | ⟨c7,
    _ | ⟨c8, _ | ⟨c9, rest⟩⟩⟩⟩⟩⟩⟩⟩⟩⟩ <;>
    first
    | exact Bool.noConfusion h
    | · unfold canonicalKeyB at h
        simp only [Bool.and_eq_true, beq_iff_eq] at h
        obtain ⟨⟨⟨⟨⟨⟨⟨⟨⟨h0, h1⟩, h2⟩, h3⟩, h4⟩, h5⟩, h6⟩, h7⟩, h8⟩, h9⟩ := h
        have hc4 : c4 = '-' := char_toNat_inj (h4.trans (show (45 : Nat) = Char.toNat '-' from rfl))
        have hc7 : c7 = '-' := char_toNat_inj (h7.trans (show (45 : Nat) = Char.toNat '-' from rfl))
        subst hc4
        subst hc7
        exact ⟨c0, c1, c2, c3, c5, c6, c8, c9, rest, rfl, h0, h1, h2, h3, h5, h6, h8, h9⟩

lemma firstToken_canonical (c0 c1 c2 c3 c5 c6 c8 c9 : Char) (rest : List Char)
    (h0 : isDigitB c0 = true) (h1 : isDigitB c1 = true) (h2 : isDigitB c2 = true)
    (h3 : isDigitB c3 = true) (h5 : isDigitB c5 = true) (h6 : isDigitB c6 = true)
    (h8 : isDigitB c8 = true) (h9 : isDigitB c9 = true) :
    firstToken (c0 :: c1 :: c2 :: c3 :: '-' :: c5 :: c6 :: '-' :: c8 :: c9 :: rest) =
      .ok (c0 :: c1 :: c2 :: c3 :: '-' :: c5 :: c6 :: '-' :: c8 :: c9 ::
        rest.takeWhile (fun x => !isSpaceB x)) := by
  unfold firstToken
  simp [List.dropWhile_cons, List.takeWhile_cons, isSpaceB_false_of_digit h0,
    isSpaceB_false_of_digit h1, isSpaceB_false_of_digit h2, isSpaceB_false_of_digit h3,
    isSpaceB_false_of_digit h5, isSpaceB_false_of_digit h6, isSpaceB_false_of_digit h8,
    isSpaceB_false_of_digit h9, isSpaceB_dash]

lemma strpDate_canonical_inv (c0 c1 c2 c3 c5 c6 c8 c9 : Char) (t : List Char) (d : Date)
    (h0 : isDigitB c0 = true) (h1 : isDigitB c1 = true) (h2 : isDigitB c2 = true)
    (h3 : isDigitB c3 = true) (h5 : isDigitB c5 = true) (h6 : isDigitB c6 = true)
    (h8 : isDigitB c8 = true) (h9 : isDigitB c9 = true)
    (h : strpDate (c0 :: c1 :: c2 :: c3 :: '-' :: c5 :: c6 :: '-' :: c8 :: c9 :: t) = some d) :
    t = [] ∧ d.year = digitsVal [c0, c1, c2, c3] ∧ d.month = digitsVal [c5, c6] ∧
      d.day = digitsVal [c8, c9] := by
  rw [strpDate_canonical _ _ _ _ _ _ _ _ t h0 h1 h2 h3 h5 h6 h8 h9] at h
  split at h
  case isFalse => exact absurd h (by simp)
  case isTrue ht =>
    split at h
    case isFalse => exact absurd h (by simp)
    case isTrue hcond =>
      have hd := Option.some.inj h
      subst hd
      exact ⟨ht, rfl, rfl, rfl⟩

lemma keyDateL_canonical (c0 c1 c2 c3 c5 c6 c8 c9 : Char) (rest : List Char) (d : Date)
    (h0 : isDigitB c0 = true) (h1 : isDigitB c1 = true) (h2 : isDigitB c2 = true)
    (h3 : isDigitB c3 = true) (h5 : isDigitB c5 = true) (h6 : isDigitB c6 = true)
    (h8 : isDigitB c8 = true) (h9 : isDigitB c9 = true)
    (h : keyDateL (c0 :: c1 :: c2 :: c3 :: '-' :: c5 :: c6 :: '-' :: c8 :: c9 :: rest) = some d) :
    d.year = digitsVal [c0, c1, c2, c3] ∧ d.month = digitsVal [c5, c6] ∧
      d.day = digitsVal [c8, c9] := by
  unfold keyDateL at h
  rw [firstToken_canonical c0 c1 c2 c3 c5 c6 c8 c9 rest h0 h1 h2 h3 h5 h6 h8 h9] at h
  simp only [] at h
  obtain ⟨-, hy, hm, hd⟩ :=
    strpDate_canonical_inv c0 c1 c2 c3 c5 c6 c8 c9 _ d h0 h1 h2 h3 h5 h6 h8 h9 h
  exact ⟨hy, hm, hd⟩

/-- Lexicographic order on two parseable fixed-width timestamp keys implies
chronological order of their parsed dates. -/
lemma key_lex_le_val (k1 k2 : List Char) (d1 d2 : Date)
    (hc1 : canonicalKeyB k1 = true) (hc2 : canonicalKeyB k2 = true)
    (hd1 : keyDateL k1 = some d1) (hd2 : keyDateL k2 = some d2)
    (hlex : lexLeChars k1 k2 = true) : d1.val ≤ d2.val := by
  obtain ⟨a0, a1, a2, a3, a5, a6, a8, a9, r1, rfl, ha0, ha1, ha2, ha3, ha5, ha6, ha8, ha9⟩ :=
    canonicalKeyB_shape k1 hc1
  obtain ⟨b0, b1, b2, b3, b5, b6, b8, b9, r2, rfl, hb0, hb1, hb2, hb3, hb5, hb6, hb8, hb9⟩ :=
    canonicalKeyB_shape k2 hc2
  obtain ⟨hy1, hm1, hdd1⟩ :=
    keyDateL_canonical a0 a1 a2 a3 a5 a6 a8 a9 r1 d1 ha0 ha1 ha2 ha3 ha5 ha6 ha8 ha9 hd1
  obtain ⟨hy2, hm2, hdd2⟩ :=
    keyDateL_canonical b0 b1 b2 b3 b5 b6 b8 b9 r2 d2 hb0 hb1 hb2 hb3 hb5 hb6 hb8 hb9 hd2
  have hmb1 : digitsVal [a5, a6] < 100 := by
    simpa using digitsVal_lt [a5, a6] (all_digits2 ha5 ha6)
  have hdb1 : digitsVal [a8, a9] < 100 := by
    simpa using digitsVal_lt [a8, a9] (all_digits2 ha8 ha9)
  have hmb2 : digitsVal [b5, b6] < 100 := by
    simpa using digitsVal_lt [b5, b6] (all_digits2 hb5 hb6)
  have hdb2 : digitsVal [b8, b9] < 100 := by
    simpa using digitsVal_lt [b8, b9] (all_digits2 hb8 hb9)
  unfold Date.val
  rw [hy1, hy2, hm1, hm2, hdd1, hdd2]
  have hlex' : lexLeChars ([a0, a1, a2, a3] ++ '-' :: ([a5, a6] ++ '-' :: ([a8, a9] ++ r1)))
      ([b0, b1, b2, b3] ++ '-' :: ([b5, b6] ++ '-' :: ([b8, b9] ++ r2))) = true := hlex
  obtain hy | ⟨hyeq, h2⟩ := lexLe_digits_split [a0, a1, a2, a3] [b0, b1, b2, b3] _ _ rfl
    (all_digits4 ha0 ha1 ha2 ha3) (all_digits4 hb0 hb1 hb2 hb3) hlex'
  · omega
  · have hyv : digitsVal [a0, a1, a2, a3] = digitsVal [b0, b1, b2, b3] := by rw [hyeq]
    rw [lexLe_cons_same] at h2
    obtain hm | ⟨hmeq, h3⟩ := lexLe_digits_split [a5, a6] [b5, b6] _ _ rfl
      (all_digits2 ha5 ha6) (all_digits2 hb5 hb6) h2
    · omega
    · have hmv : digitsVal [a5, a6] = digitsVal [b5, b6] := by rw [hmeq]
      rw [lexLe_cons_same] at h3
      obtain hd | ⟨hdeq, -⟩ := lexLe_digits_split [a8, a9] [b8, b9] r1 r2 rfl
        (all_digits2 ha8 ha9) (all_digits2 hb8 hb9) h3
      · omega
      · have hdv : digitsVal [a8, a9] = digitsVal [b8, b9] := by rw [hdeq]
        omega

instance : IsTotal String strLeP := ⟨fun a b => lexLe_total a.data b.data⟩

instance : IsTrans String strLeP :=
  ⟨fun a b c h1 h2 => lexLe_trans a.data b.data c.data h1 h2⟩

lemma key_le_of_lex (a b : String) (hca : canonicalKeyB a.data = true)
    (hcb : canonicalKeyB b.data = true) (hpa : (keyDate a).isSome) (hpb : (keyDate b).isSome)
    (hab : strLeP a b) : dateValOf a ≤ dateValOf b := by
  obtain ⟨da, hda⟩ := Option.isSome_iff_exists.mp hpa
  obtain ⟨db, hdb⟩ := Option.isSome_iff_exists.mp hpb
  unfold dateValOf
  rw [hda, hdb]
  exact key_lex_le_val a.data b.data da db hca hcb hda hdb hab

/-- C4: for a set of retained timestamp keys in the fixed-width YYYY-MM-DD
format (optionally followed by a time-of-day), sorting by the original
timestamp string is a permutation that is chronologically ordered, and
lexicographic string order agrees with parsed-date order in both
directions. -/
theorem sorted_by_string_is_chronological (ks : List String)
    (hc : ∀ k ∈ ks, canonicalKeyB k.data = true)
    (hp : ∀ k ∈ ks, (keyDate k).isSome) :
    List.Perm (sortKeys ks) ks ∧
    List.Pairwise dateValLe (sortKeys ks) ∧
    (∀ a ∈ ks, ∀ b ∈ ks,
      (strLeP a b → dateValOf a ≤ dateValOf b) ∧
      (dateValOf a < dateValOf b → (strLeP a b ∧ ¬ strLeP b a))) := by
  have hperm : List.Perm (sortKeys ks) ks := List.perm_insertionSort strLeP ks
  refine ⟨hperm, ?_, ?_⟩
  · have hsorted : List.Pairwise strLeP (sortKeys ks) := List.sorted_insertionSort strLeP ks
    refine hsorted.imp_of_mem ?_
    intro a b ha hb hab
    have ha' : a ∈ ks := hperm.mem_iff.mp ha
    have hb' : b ∈ ks := hperm.mem_iff.mp hb
    exact key_le_of_lex a b (hc a ha') (hc b hb') (hp a ha') (hp b hb') hab
  · intro a ha b hb
    constructor
    · exact fun hab => key_le_of_lex a b (hc a ha) (hc b hb) (hp a ha) (hp b hb) hab
    · intro hlt
      have hnba : ¬ strLeP b a := fun hba =>
        absurd hlt
          (Nat.not_lt.mpr (key_le_of_lex b a (hc b hb) (hc a ha) (hp b hb) (hp a ha) hba))
      rcases lexLe_total a.data b.data with hab | hba
      · exact ⟨hab, hnba⟩
      · exact absurd hba hnba

theorem sorted_by_string_is_chronological_witness :
    List.Perm (sortKeys ["2024-01-05", "2024-01-02 10:30:00"])
      ["2024-01-05", "2024-01-02 10:30:00"] ∧
    List.Pairwise dateValLe (sortKeys ["2024-01-05", "2024-01-02 10:30:00"]) ∧
    strLeP "2024-01-02 10:30:00" "2024-01-05" ∧
    ¬ strLeP "2024-01-05" "2024-01-02 10:30:00" := by
  have h := sorted_by_string_is_chronological ["2024-01-05", "2024-01-02 10:30:00"]
    (by decide) (by decide)
  have hpair := (h.2.2 "2024-01-02 10:30:00" (by simp) "2024-01-05" (by simp)).2 (by decide)
  exact ⟨h.1, h.2.1, hpair.1, hpair.2⟩

theorem empty_result_is_distinct_warning_witness :
    index_post "demo" ⟨"IBM", 2, 2, "2023-01-01", "2023-01-03"⟩ (NetResult.resp 200 sampleRaw) =
      .ok ⟨.flashed ("No data found for " ++ pyUpper (pyStrip "IBM") ++
            " in the date range " ++ pyStrip "2023-01-01" ++ " to " ++
            pyStrip "2023-01-03" ++ ".") "warning", true⟩ ∧
    "warning" ≠ "error" := by
  have h := empty_result_is_distinct_warning "demo" ⟨"IBM", 2, 2, "2023-01-01", "2023-01-03"⟩
    (NetResult.resp 200 sampleRaw) ⟨2023, 1, 1⟩ ⟨2023, 1, 3⟩ sampleRaw
    (by decide) (by decide) (by decide) (by decide) rfl (by simp [sampleRaw]) rfl
  exact h
